import Mathlib

/-!
Verification of the adaptive worker-pool manager of `willnx/autobox`
(`kafka/log_processor/manager.py` and `kafka/log_processor/worker.py`).

The manager tracks a list of worker processes (identified here by their
names, modelled as natural numbers), drains a control-plane channel of
`(worker name, error string)` messages, computes a scale decision from the
pending depth of the work-distribution channel, and spawns workers or
enqueues a termination sentinel.  The worker loop dequeues items, processes
them, and reports its own termination on the control-plane channel.

Machine integers in the source are Python arbitrary-precision integers, so
they are embedded as `Int`/`Nat` directly.  Fallible code (the fatal-abort
path of the health check, attribute lookups on the logger) is embedded with
`Except`.
-/

namespace Autobox

/-- A control-plane message drained from the idle queue: the reporting
worker's name paired with its error string (empty for a clean retirement). -/
abbrev Msg := Nat × String

/-- Constant `SCALE_UP_BY` from `manager.py`. -/
def SCALE_UP_BY : Int := 2

/-- Constant `SCALE_DOWN_BY` from `manager.py`. -/
def SCALE_DOWN_BY : Int := -1

/-- Embedding of `check_worker_health(workers, idle_queue, log)` from
`manager.py` (lines 84-134).  The drained content of the idle queue is the
list `msgs`.  `error_workers` counts drained messages whose error string is
non-empty; `terminated` collects every reporting worker's name; if every
tracked worker errored the function raises `RuntimeError`, otherwise it
returns the workers whose names did not report, together with the scalier
(1 when at least one crash was seen, else 0). -/
def checkWorkerHealth (workers : List Nat) (msgs : List Msg) :
    Except String (List Nat × Int) :=
  let totalWorkers := workers.length
  let errorWorkers := (msgs.filter (fun m => m.snd ≠ "")).length
  let terminated := msgs.map (fun m => m.fst)
  if errorWorkers = totalWorkers then
    Except.error "All workers are dead; aborting"
  else
    let scalier : Int := if errorWorkers ≠ 0 then 1 else 0
    let newWorkers := workers.filter (fun w => ¬ terminated.contains w)
    Except.ok (newWorkers, scalier)

/-- Embedding of `check_workload(workers, work_queue, idle_queue, log)` from
`manager.py` (lines 47-81).  `workInQueue` is the observed `qsize` of the
work queue.  The baseline need is `SCALE_UP_BY` above 100 pending items,
`SCALE_DOWN_BY` below 10, zero otherwise, and the scalier from the health
check is added to it. -/
def checkWorkload (workers : List Nat) (msgs : List Msg) (workInQueue : Nat) :
    Except String (List Nat × Int) :=
  match checkWorkerHealth workers msgs with
  | Except.error e => Except.error e
  | Except.ok (workers, scaleModifier) =>
    let neededWorkers : Int :=
      if workInQueue > 100 then SCALE_UP_BY
      else if workInQueue < 10 then SCALE_DOWN_BY
      else 0
    Except.ok (workers, neededWorkers + scaleModifier)

/-- Result of one call to `adjust_worker_count`: the (possibly mutated)
worker list, whether a termination sentinel was put on the work queue, the
names of the newly spawned workers, and the next fresh worker name. -/
structure AdjustResult where
  workers : List Nat
  sentinelPut : Bool
  spawned : List Nat
  nextId : Nat
  deriving Repr, DecidableEq

/-- Embedding of `adjust_worker_count(workers, ..., need)` from `manager.py`
(lines 137-167).  If `need < 0` and more than one worker is tracked, one
sentinel is enqueued; otherwise `min(need, max(0, MAX_WORKERS - len))`
workers are spawned and appended (a negative or zero count spawns none).
The configured ceiling `MAX_WORKERS` is the parameter `maxWorkers`; fresh
process names are drawn from `nextId`. -/
def adjustWorkerCount (maxWorkers : Nat) (workers : List Nat) (nextId : Nat)
    (need : Int) : AdjustResult :=
  if need < 0 ∧ workers.length > 1 then
    { workers := workers, sentinelPut := true, spawned := [], nextId := nextId }
  else
    let potentialMake : Int := max 0 ((maxWorkers : Int) - workers.length)
    let toMake : Int := min need potentialMake
    let spawned := (List.range toMake.toNat).map (fun i => nextId + i)
    { workers := workers ++ spawned, sentinelPut := false, spawned := spawned,
      nextId := nextId + toMake.toNat }

/-- Definition taken from the spec's words (section 4.3 and section 8), for
comparison against the source's `check_workload`: `d > 100` gives `+2`,
`d < 10` gives `-1`, and `10 ≤ d ≤ 100` gives `0`. -/
def baselineNeedSpec (d : Nat) : Int :=
  if d > 100 then 2 else if d < 10 then -1 else 0

/-! ## Worker loop (`worker.py`) -/

/-- The `SENTINEL` constant shared by `manager.py` and `worker.py`. -/
def SENTINEL : String := "TERMINATE YOU USELESS PROCESS"

/-- Observable events of one execution of `Worker.run`, in program order:
a `put` on the idle queue, a call to `flush_on_term` (with the outcome it
had: `none` for success, `some e` when it raised `e`), or a call to
`process_data` on a work item. -/
inductive WEv
  | put (who : String) (err : String)
  | flushCall (outcome : Option String)
  | procCall (data : String)
  deriving Repr, DecidableEq

/-- How a completed run of `Worker.run` exited: by dequeuing the sentinel
with a successful flush, by dequeuing the sentinel with a flush that raised
`e`, or because `process_data` raised `e` on a normal item. -/
inductive WExit
  | sentinelClean
  | sentinelFlushErr (e : String)
  | procErr (e : String)
  deriving Repr, DecidableEq

/-- Embedding of `Worker.run` from `worker.py` (lines 37-60) over a finite
prefix `items` of the work queue.  `proc` gives the behaviour of
`process_data` on each item (`none` means it returned, `some e` means it
raised `e`); `flushes` is the oracle of successive `flush_on_term` outcomes.
Each iteration dequeues an item inside a `try` block.  On the sentinel the
code puts `(name, "")` on the idle queue and then calls `flush_on_term`; if
that flush raises, the surrounding handler catches it, attempts the flush
again, and puts a second message `(name, e)`.  If `process_data` raises
`e`, the handler attempts the flush and puts `(name, e)`.  An exhausted
`items` prefix means the worker is still blocked waiting for work
(outcome `none`). -/
def workerRun (name : String) (proc : String → Option String)
    (flushes : List (Option String)) : List String → List WEv × Option WExit
  | [] => ([], none)
  | data :: rest =>
    if data = SENTINEL then
      match flushes.headD none with
      | none =>
        ([WEv.put name "", WEv.flushCall none], some WExit.sentinelClean)
      | some e =>
        let f2 := (flushes.drop 1).headD none
        ([WEv.put name "", WEv.flushCall (some e), WEv.flushCall f2,
          WEv.put name e], some (WExit.sentinelFlushErr e))
    else
      match proc data with
      | none =>
        let r := workerRun name proc flushes rest
        (WEv.procCall data :: r.fst, r.snd)
      | some e =>
        let f1 := flushes.headD none
        ([WEv.procCall data, WEv.flushCall f1, WEv.put name e],
         some (WExit.procErr e))

/-- Projection of a run's event list onto the control messages it put on the
idle queue, in order. -/
def putMsgs (evs : List WEv) : List (String × String) :=
  evs.filterMap (fun ev => match ev with
    | WEv.put w e => some (w, e)
    | _ => none)

/-- Tests whether an event is a `put` on the idle queue. -/
def isPutEv : WEv → Bool
  | WEv.put _ _ => true
  | _ => false

/-- Tests whether an event is a call to `flush_on_term`. -/
def isFlushEv : WEv → Bool
  | WEv.flushCall _ => true
  | _ => false

/-! ## Per-item processing (`LogWorker.process_data`, `worker.py` 87-95) -/

/-- Outcome of `LogWorker.extract` on one payload: a parsed info object, a
`ValueError` (un-parseable JSON), an `InvalidToken` (undecryptable data), or
any other raised error. -/
inductive ExtractOutcome
  | parsed (info : String)
  | valueError (m : String)
  | invalidToken (m : String)
  | otherRaise (m : String)
  deriving Repr, DecidableEq

/-- Side effects of one call to `LogWorker.process_data`. -/
inductive WAction
  | logItemError (m : String) (data : String)
  | esWrite (doc : String)
  deriving Repr, DecidableEq

/-- Embedding of `LogWorker.process_data` from `worker.py` (lines 87-95).
`extract` is attempted inside a `try`; `ValueError` and `InvalidToken` are
caught and logged together with the offending item, which is then dropped;
on success the formatted document is written to ElasticSearch; any other
error propagates to the caller. -/
def processData (extract : String → ExtractOutcome)
    (formatInfo : String → String) (data : String) :
    Except String (List WAction) :=
  match extract data with
  | ExtractOutcome.parsed info => Except.ok [WAction.esWrite (formatInfo info)]
  | ExtractOutcome.valueError m => Except.ok [WAction.logItemError m data]
  | ExtractOutcome.invalidToken m => Except.ok [WAction.logItemError m data]
  | ExtractOutcome.otherRaise m => Except.error m

/-- The `process_data` behaviour a `LogWorker` contributes to `Worker.run`:
`none` when `process_data` returned (item handled or written), `some e`
when it raised `e`. -/
def procOf (extract : String → ExtractOutcome)
    (formatInfo : String → String) (data : String) : Option String :=
  match processData extract formatInfo data with
  | Except.ok _ => none
  | Except.error e => some e

/-! ## Manager outer loop failure boundary (`process_logs`, `manager.py` 252-259) -/

/-- Logging methods exposed by the object `get_logger` returns (a stdlib
`logging.Logger`, wrapped in a `logging.LoggerAdapter`); looking up any
other attribute raises `AttributeError`. -/
def loggerMethods : List String :=
  ["debug", "info", "warning", "error", "exception", "critical", "log",
   "setLevel", "isEnabledFor"]

/-- Observable effects of the manager loop's exception handler. -/
inductive MgrEffect
  | logged (method : String) (arg : String)
  | slept (seconds : Nat)
  | brokeLoop
  deriving Repr, DecidableEq

/-- Attribute lookup plus call on the manager's logger: returns the logging
effect when the method exists, raises `AttributeError` otherwise. -/
def callLogger (method : String) (arg : String) : Except String MgrEffect :=
  if loggerMethods.contains method then Except.ok (MgrEffect.logged method arg)
  else Except.error ("AttributeError: no logger attribute named " ++ method)

/-- Embedding of the `except Exception as doh` branch of the manager loop in
`process_logs` (`manager.py` lines 255-259): `log.execption(doh)`, then
`log.error(...)`, then `time.sleep(300)`, then `break`.  The result is the
ordered list of effects the branch performs, or the error it raises. -/
def managerLoopHandler (doh : String) : Except String (List MgrEffect) :=
  match callLogger "execption" doh with
  | Except.error e => Except.error e
  | Except.ok e1 =>
    match callLogger "error" "Sleeping to prevent flapping" with
    | Except.error e => Except.error e
    | Except.ok e2 =>
      Except.ok [e1, e2, MgrEffect.slept 300, MgrEffect.brokeLoop]

/-! ## Pool transition system (manager loop plus concurrent workers)

State of the supervision subsystem: the manager's tracked worker list, the
set of actually running worker processes, the number of termination
sentinels pending in the work queue, the control-plane messages not yet
drained, the next fresh worker name, and whether the manager aborted. -/

structure PoolState where
  tracked : List Nat
  running : List Nat
  sentinels : Nat
  msgs : List Msg
  nextId : Nat
  aborted : Bool
  deriving Repr, DecidableEq

/-- Interleaved atomic steps of the system: a manager call to
`adjust_worker_count`, a manager reconciliation pass
(`check_worker_health`), or a running worker dequeuing a pending sentinel
(the sentinel branch of `Worker.run`: it reports `(name, "")` on the
control-plane channel and exits). -/
inductive Step
  | adjust (need : Int)
  | reconcile
  | retire (i : Nat)
  deriving Repr, DecidableEq

/-- One transition of the pool system.  `adjust` runs `adjustWorkerCount` on
the tracked list (spawned workers start running at once, a sentinel put
increments the pending-sentinel count); `reconcile` runs
`checkWorkerHealth` on the tracked list over all drained messages, aborting
the manager when it raises; `retire i` lets the running worker at index
`i mod length` consume a pending sentinel, report cleanly, and stop. -/
def applyStep (maxWorkers : Nat) (s : PoolState) : Step → PoolState
  | Step.adjust need =>
    if s.aborted then s else
    let r := adjustWorkerCount maxWorkers s.tracked s.nextId need
    { s with tracked := r.workers, running := s.running ++ r.spawned,
             sentinels := s.sentinels + (if r.sentinelPut then 1 else 0),
             nextId := r.nextId }
  | Step.reconcile =>
    if s.aborted then s else
    match checkWorkerHealth s.tracked s.msgs with
    | Except.error _ => { s with aborted := true }
    | Except.ok (ws, _) => { s with tracked := ws, msgs := [] }
  | Step.retire i =>
    if s.aborted then s else
    if 0 < s.sentinels ∧ s.running ≠ [] then
      let w := s.running.getD (i % s.running.length) 0
      { s with running := s.running.filter (fun x => x ≠ w),
               sentinels := s.sentinels - 1,
               msgs := s.msgs ++ [(w, "")] }
    else s

/-- The state right after `process_logs` starts (`manager.py` lines
249-251): an empty worker list followed by `adjust_worker_count(...,
need=1)`, which spawns the first worker. -/
def initState (maxWorkers : Nat) : PoolState :=
  applyStep maxWorkers
    { tracked := [], running := [], sentinels := 0, msgs := [], nextId := 0,
      aborted := false }
    (Step.adjust 1)

/-- Run a sequence of steps from the initial one-worker state. -/
def runSteps (maxWorkers : Nat) (steps : List Step) : PoolState :=
  steps.foldl (applyStep maxWorkers) (initState maxWorkers)

/-- A settled manager pass: either a reconcile-then-adjust scale-up with a
non-negative need (as `produce_work` issues it), or a scale-down pass whose
sentinel is consumed by some running worker (chosen by `i`) and whose
retirement is reconciled before the next pass begins. -/
inductive SCmd
  | up (need : Nat)
  | down (i : Nat)
  deriving Repr, DecidableEq

/-- The primitive steps a settled command performs. -/
def sCmdSteps : SCmd → List Step
  | SCmd.up need => [Step.reconcile, Step.adjust (need : Int)]
  | SCmd.down i => [Step.reconcile, Step.adjust (-1), Step.retire i,
                    Step.reconcile]

/-- Run a sequence of settled manager passes from the initial state: each
pass executes its primitive steps in order through `applyStep`. -/
def runSettled (maxWorkers : Nat) (cmds : List SCmd) : PoolState :=
  cmds.foldl (fun s c => (sCmdSteps c).foldl (applyStep maxWorkers) s)
    (initState maxWorkers)

/-! ## Reference-passing model (`check_worker_health` result rebinding)

Python lists are heap objects passed by reference; `check_worker_health`
allocates a fresh list while `adjust_worker_count` appends to the list it
receives in place.  A `Store` maps references (indices) to list objects. -/

abbrev Store := List (List Nat)

/-- Dereference `r` in the store. -/
def readRef (st : Store) (r : Nat) : List Nat := st.getD r []

/-- In-place update of the object at `r`. -/
def writeRef (st : Store) (r : Nat) (v : List Nat) : Store := st.set r v

/-- Allocate a fresh object, returning the grown store and a reference to
the new object. -/
def allocRef (st : Store) (v : List Nat) : Store × Nat := (st ++ [v], st.length)

/-- `check_worker_health` at the reference level: it reads the list at `r`,
builds a brand-new list `new_workers`, and returns a reference to the new
object; no existing object is written. -/
def checkWorkerHealthRef (st : Store) (r : Nat) (msgs : List Msg) :
    Except String (Store × Nat × Int) :=
  match checkWorkerHealth (readRef st r) msgs with
  | Except.error e => Except.error e
  | Except.ok (ws, s) =>
    let a := allocRef st ws
    Except.ok (a.fst, a.snd, s)

/-- `check_workload` at the reference level: the health check plus the
baseline-need computation; the returned worker-list reference is the fresh
one the health check made. -/
def checkWorkloadRef (st : Store) (r : Nat) (msgs : List Msg)
    (workInQueue : Nat) : Except String (Store × Nat × Int) :=
  match checkWorkerHealthRef st r msgs with
  | Except.error e => Except.error e
  | Except.ok (st1, r1, scaleModifier) =>
    let neededWorkers : Int :=
      if workInQueue > 100 then SCALE_UP_BY
      else if workInQueue < 10 then SCALE_DOWN_BY
      else 0
    Except.ok (st1, r1, neededWorkers + scaleModifier)

/-- `adjust_worker_count` at the reference level: `workers.append(...)`
mutates the object at `r` in place and the function returns the same
reference. -/
def adjustWorkerCountRef (maxWorkers : Nat) (st : Store) (r : Nat)
    (nextId : Nat) (need : Int) : Store × Nat × Nat :=
  let res := adjustWorkerCount maxWorkers (readRef st r) nextId need
  (writeRef st r res.workers, r, res.nextId)

/-- Data the channels supply to one scaling checkpoint inside
`produce_work`: the drained control messages and the observed queue depth. -/
structure PassData where
  msgs : List Msg
  depth : Nat
  deriving Repr, DecidableEq

/-- Embedding of the scaling checkpoints of one `produce_work` invocation
(`manager.py` lines 206-214) at the reference level.  The local variable
`workers` starts as the caller's reference `r`; each checkpoint rebinds it
to the fresh reference returned by `check_workload` and then calls
`adjust_worker_count` on that rebound reference.  The function returns the
final store, the final value of the local variable, and the name counter. -/
def produceWorkRef (maxWorkers : Nat) (st : Store) (r : Nat) (nextId : Nat) :
    List PassData → Except String (Store × Nat × Nat)
  | [] => Except.ok (st, r, nextId)
  | p :: rest =>
    match checkWorkloadRef st r p.msgs p.depth with
    | Except.error e => Except.error e
    | Except.ok (st1, r1, need) =>
      let a := adjustWorkerCountRef maxWorkers st1 r1 nextId need
      produceWorkRef maxWorkers a.fst a.snd.fst a.snd.snd rest

/-- Embedding of the `while True` loop of `process_logs` (`manager.py`
lines 252-254) at the reference level: every iteration passes the same
variable `workers` (reference `r`) to `produce_work`. -/
def processLogsLoopRef (maxWorkers : Nat) (st : Store) (r : Nat)
    (nextId : Nat) : List (List PassData) → Except String (Store × Nat)
  | [] => Except.ok (st, nextId)
  | inv :: rest =>
    match produceWorkRef maxWorkers st r nextId inv with
    | Except.error e => Except.error e
    | Except.ok (st1, _, nid1) =>
      processLogsLoopRef maxWorkers st1 r nid1 rest

/-- Invariant of settled pool executions: the manager's tracked list agrees
with the running workers, no sentinel or control message is pending, the
pool is non-empty with distinct names all below the fresh-name counter, and
the manager has not aborted. -/
def SettledInv (s : PoolState) : Prop :=
  s.tracked = s.running ∧ s.sentinels = 0 ∧ s.msgs = [] ∧
  s.tracked ≠ [] ∧ s.tracked.Nodup ∧ (∀ x ∈ s.tracked, x < s.nextId) ∧
  s.aborted = false

/-! ## Theorems -/

/-- C5: for every pending depth `d` of the work-distribution channel and
every scalier `s` returned by the health check, the combined scale decision
of `check_workload` equals `baseline(d) + s`, where `baseline(d)` is `+2`
for `d > 100`, `-1` for `d < 10`, and `0` for `10 ≤ d ≤ 100`. -/
theorem check_workload_is_baseline_plus_scalier
    (workers : List Nat) (msgs : List Msg) (d : Nat) (ws : List Nat) (s : Int)
    (h : checkWorkerHealth workers msgs = Except.ok (ws, s)) :
    checkWorkload workers msgs d = Except.ok (ws, baselineNeedSpec d + s) := by
  unfold checkWorkload
  rw [h]
  rfl

/-- Witness for C5: a concrete health-check result and pending depth 150,
where the combined need is `2 + 0`. -/
theorem check_workload_is_baseline_plus_scalier_witness :
    checkWorkload [5] [] 150 = Except.ok ([5], baselineNeedSpec 150 + 0) :=
  check_workload_is_baseline_plus_scalier [5] [] 150 [5] 0 (by rfl)

/-- C6: every reconciliation pass that returns removes from the tracked set
exactly the workers whose identity appeared in a drained control message,
regardless of whether the message was clean or a crash; every worker that
did not report remains. -/
theorem check_worker_health_membership
    (workers : List Nat) (msgs : List Msg) (ws : List Nat) (s : Int)
    (h : checkWorkerHealth workers msgs = Except.ok (ws, s)) :
    ∀ w : Nat, w ∈ ws ↔ (w ∈ workers ∧ ∀ e : String, (w, e) ∉ msgs) := by
  intro w
  simp [checkWorkerHealth] at h
  split at h
  · simp at h
  · rw [Except.ok.injEq, Prod.mk.injEq] at h
    obtain ⟨h1, h2⟩ := h
    rw [← h1]
    simp [List.mem_filter, List.mem_map]

/-- Witness for C6: with workers `[0, 1]` and a single crash report from
worker `0`, worker `1` remains and worker `0` is gone. -/
theorem check_worker_health_membership_witness :
    (1 ∈ [1] ↔ (1 ∈ [0, 1] ∧ ∀ e : String, ((1 : Nat), e) ∉ [((0 : Nat), "boom")])) :=
  check_worker_health_membership [0, 1] [(0, "boom")] [1] 1 (by rfl) 1

/-- C8: for every pool adjustment with `need > 0` and current pool size
`c`, exactly `min(need, ceiling - c)` new workers are spawned and appended
(the count is zero when `c ≥ ceiling`, by the truncated subtraction), and
when the pool starts at or below the ceiling it never ends above it. -/
theorem adjust_worker_count_spawn_capped
    (maxWorkers : Nat) (workers : List Nat) (nextId : Nat) (need : Int)
    (hpos : 0 < need) :
    (adjustWorkerCount maxWorkers workers nextId need).workers.length =
        workers.length + min need.toNat (maxWorkers - workers.length)
      ∧ (workers.length ≤ maxWorkers →
        (adjustWorkerCount maxWorkers workers nextId need).workers.length ≤
          maxWorkers) := by
  unfold adjustWorkerCount
  split
  · next hcond => omega
  · next hcond =>
    simp only [List.length_append, List.length_map, List.length_range]
    omega

/-- Witness for C8: a pool of 7 with ceiling 8 asked to grow by 2 gains
exactly one worker and stays at the ceiling. -/
theorem adjust_worker_count_spawn_capped_witness :
    ((adjustWorkerCount 8 [0, 1, 2, 3, 4, 5, 6] 7 2).workers.length =
        7 + min (Int.toNat 2) (8 - 7)
      ∧ ((7 : Nat) ≤ 8 →
        (adjustWorkerCount 8 [0, 1, 2, 3, 4, 5, 6] 7 2).workers.length ≤ 8)) := by
  have h := adjust_worker_count_spawn_capped 8 [0, 1, 2, 3, 4, 5, 6] 7 2
    (by decide)
  simpa using h

/-- C7: evidence for the code bug in the outer failure boundary of
`process_logs` (`manager.py` line 256).  The handler's first statement is
`log.execption(doh)`, but the logger object has no attribute named
`execption`, so every unhandled producer-loop error raises
`AttributeError` out of the handler: the logged cooldown message, the
300-second sleep, and the clean `break` are never reached, contrary to the
claim that the coordinator logs, sleeps, and then exits. -/
theorem process_logs_handler_raises_attribute_error (doh : String) :
    managerLoopHandler doh =
        Except.error "AttributeError: no logger attribute named execption"
      ∧ ∀ effects : List MgrEffect, managerLoopHandler doh ≠ Except.ok effects := by
  constructor
  · rfl
  · intro effects hok
    rw [show managerLoopHandler doh =
        Except.error "AttributeError: no logger attribute named execption"
      from rfl] at hok
    exact Except.noConfusion hok

/-- C9: a work item whose extraction fails with a validation or decryption
error (`ValueError` or `InvalidToken`) is logged and dropped inside
`process_data` without raising, and the worker's run loop continues past it
exactly as it would continue past a processed item; extraction errors
outside that class raise out of `process_data` and terminate the worker
with a single crash message. -/
theorem log_worker_item_error_recovery
    (extract : String → ExtractOutcome) (formatInfo : String → String)
    (name : String) (flushes : List (Option String)) (data : String)
    (rest : List String) (hns : data ≠ SENTINEL) :
    ((∀ m, (extract data = ExtractOutcome.valueError m ∨
            extract data = ExtractOutcome.invalidToken m) →
        processData extract formatInfo data =
          Except.ok [WAction.logItemError m data] ∧
        workerRun name (procOf extract formatInfo) flushes (data :: rest) =
          (WEv.procCall data ::
            (workerRun name (procOf extract formatInfo) flushes rest).fst,
           (workerRun name (procOf extract formatInfo) flushes rest).snd))
     ∧ (∀ m, extract data = ExtractOutcome.otherRaise m →
        processData extract formatInfo data = Except.error m ∧
        workerRun name (procOf extract formatInfo) flushes (data :: rest) =
          ([WEv.procCall data, WEv.flushCall (flushes.headD none),
            WEv.put name m], some (WExit.procErr m)))) := by
  constructor
  · intro m hm
    have hpd : processData extract formatInfo data =
        Except.ok [WAction.logItemError m data] := by
      cases hm with
      | inl h => simp [processData, h]
      | inr h => simp [processData, h]
    refine ⟨hpd, ?_⟩
    simp [workerRun, hns, procOf, hpd]
  · intro m hm
    have hpd : processData extract formatInfo data = Except.error m := by
      simp [processData, hm]
    refine ⟨hpd, ?_⟩
    simp [workerRun, hns, procOf, hpd]

/-- Witness for C9: a concrete extractor that raises `ValueError` on every
payload; the item is logged and dropped and the one-item run ends still
waiting for work. -/
theorem log_worker_item_error_recovery_witness :
    processData (fun _ => ExtractOutcome.valueError "bad json") (fun s => s)
        "payload" = Except.ok [WAction.logItemError "bad json" "payload"]
      ∧ workerRun "w"
          (procOf (fun _ => ExtractOutcome.valueError "bad json") (fun s => s))
          [] ["payload"] = ([WEv.procCall "payload"], none) := by
  have h := (log_worker_item_error_recovery
    (fun _ => ExtractOutcome.valueError "bad json") (fun s => s) "w" []
    "payload" [] (by decide)).1 "bad json" (Or.inl rfl)
  exact ⟨h.1, by rw [h.2]; rfl⟩

/-- C4 counterexample: a reconciliation pass over an empty tracked set with
no drained messages has `k = 0` crash reports, yet the reconciler takes the
fatal-abort path (`error_workers == total_workers` holds at `0 == 0`),
contradicting the claim that `k == 0` always yields scalier `0` with no
fatal abort. -/
theorem check_worker_health_aborts_on_empty_pass :
    checkWorkerHealth [] [] = Except.error "All workers are dead; aborting"
      ∧ (List.filter (fun m => decide (m.2 ≠ "")) ([] : List Msg)).length = 0 := by
  exact ⟨rfl, rfl⟩

/-- C4 as amended: for a pass over `n` tracked workers whose drained
messages contain `k` crash reports, `k = n` (including the degenerate
`k = n = 0`) takes the fatal-abort path; `0 < k < n` returns scalier `1`;
and `k = 0` with `n > 0` returns scalier `0` with no abort. -/
theorem check_worker_health_scalier_cases
    (workers : List Nat) (msgs : List Msg) :
    (((List.filter (fun m => decide (m.2 ≠ "")) msgs).length = workers.length →
        ∃ e, checkWorkerHealth workers msgs = Except.error e)
     ∧ (0 < (List.filter (fun m => decide (m.2 ≠ "")) msgs).length →
        (List.filter (fun m => decide (m.2 ≠ "")) msgs).length < workers.length →
        ∃ ws, checkWorkerHealth workers msgs = Except.ok (ws, 1))
     ∧ ((List.filter (fun m => decide (m.2 ≠ "")) msgs).length = 0 →
        0 < workers.length →
        ∃ ws, checkWorkerHealth workers msgs = Except.ok (ws, 0))) := by
  refine ⟨fun hk => ?_, fun hk1 hk2 => ?_, fun hk hn => ?_⟩
  · refine ⟨"All workers are dead; aborting", ?_⟩
    simp only [checkWorkerHealth]
    rw [if_pos hk]
  · refine ⟨workers.filter (fun w => ¬ (msgs.map (fun m => m.fst)).contains w), ?_⟩
    simp only [checkWorkerHealth]
    split
    · next hcond => exact absurd hcond (by omega)
    · next hcond =>
        rw [if_pos (by omega :
          (List.filter (fun m => decide (m.2 ≠ "")) msgs).length ≠ 0)]
  · refine ⟨workers.filter (fun w => ¬ (msgs.map (fun m => m.fst)).contains w), ?_⟩
    simp only [checkWorkerHealth]
    split
    · next hcond => exact absurd hcond (by omega)
    · next hcond =>
        rw [if_neg (by omega :
          ¬ (List.filter (fun m => decide (m.2 ≠ "")) msgs).length ≠ 0)]

/-- Witness for C4: the three amended cases at concrete passes: the sole
tracked worker crashing aborts; one crash among two workers gives scalier
`1`; a clean pass over two workers gives scalier `0`. -/
theorem check_worker_health_scalier_cases_witness :
    ((∃ e, checkWorkerHealth [0] [(0, "x")] = Except.error e)
     ∧ (∃ ws, checkWorkerHealth [0, 1] [(0, "x")] = Except.ok (ws, 1))
     ∧ (∃ ws, checkWorkerHealth [0, 1] [] = Except.ok (ws, 0))) :=
  ⟨(check_worker_health_scalier_cases [0] [(0, "x")]).1 (by decide),
   (check_worker_health_scalier_cases [0, 1] [(0, "x")]).2.1 (by decide)
     (by decide),
   (check_worker_health_scalier_cases [0, 1] []).2.2 (by decide) (by decide)⟩

/-- C2 counterexample: a worker that dequeues the termination marker and
whose flush hook raises enqueues two control messages in one run — first
the clean `(name, "")`, then `(name, flush error)` from the generic
exception handler — contradicting both the exactly-once claim and the
claim that the reported message is unaffected by a flush failure. -/
theorem worker_run_two_messages_on_retire_flush_failure :
    putMsgs (workerRun "w0" (fun _ => none) [some "flush failed"]
        [SENTINEL]).fst = [("w0", ""), ("w0", "flush failed")]
      ∧ (putMsgs (workerRun "w0" (fun _ => none) [some "flush failed"]
          [SENTINEL]).fst).length = 2 :=
  ⟨rfl, rfl⟩

/-- C2 as amended: full accounting of the control messages of a worker run.
A run that exits via the termination marker with a successful flush
enqueues exactly the clean message `(name, "")`; one whose flush raises `e`
enqueues exactly `(name, "")` followed by `(name, e)`; one that exits via a
processing error `e` enqueues exactly `(name, e)`; a run still waiting for
work has enqueued nothing. -/
theorem worker_run_control_message_accounting
    (name : String) (proc : String → Option String)
    (flushes : List (Option String)) (items : List String) :
    putMsgs (workerRun name proc flushes items).fst =
      (match (workerRun name proc flushes items).snd with
       | some WExit.sentinelClean => [(name, "")]
       | some (WExit.sentinelFlushErr e) => [(name, ""), (name, e)]
       | some (WExit.procErr e) => [(name, e)]
       | none => []) := by
  induction items with
  | nil => rfl
  | cons data rest ih =>
    by_cases hs : data = SENTINEL
    · cases hfd : flushes.head?.getD none with
      | none => simp [workerRun, hs, hfd, putMsgs]
      | some e => simp [workerRun, hs, hfd, putMsgs]
    · cases hp : proc data with
      | none => simpa [workerRun, hs, hp, putMsgs] using ih
      | some e => simp [workerRun, hs, hp, putMsgs]

/-- C3 counterexample: on the termination-marker path the worker enqueues
its clean control message (event index 0) and only then invokes the flush
hook (event index 1) — `worker.py` lines 45-46 put before flushing — so the
flush hook is not invoked before the control message is enqueued. -/
theorem worker_run_flush_invoked_after_put :
    (workerRun "w0" (fun _ => none) [] [SENTINEL]).fst =
        [WEv.put "w0" "", WEv.flushCall none]
      ∧ (workerRun "w0" (fun _ => none) [] [SENTINEL]).fst.findIdx isPutEv = 0
      ∧ (workerRun "w0" (fun _ => none) [] [SENTINEL]).fst.findIdx isFlushEv
          = 1 :=
  ⟨rfl, rfl, rfl⟩

/-- C3 as amended: for every worker run that dequeues the termination
marker, the clean control message `(selfID, "")` is enqueued strictly
before the flush hook is invoked (the reverse of the claimed order), and
the flush hook is still invoked before the run exits, whether or not the
flush raises. -/
theorem worker_run_clean_put_before_flush
    (name : String) (proc : String → Option String)
    (flushes : List (Option String)) (items : List String)
    (h : (workerRun name proc flushes items).snd = some WExit.sentinelClean ∨
         ∃ e, (workerRun name proc flushes items).snd =
           some (WExit.sentinelFlushErr e)) :
    ((workerRun name proc flushes items).fst.find? isPutEv =
        some (WEv.put name "")
      ∧ (workerRun name proc flushes items).fst.findIdx isPutEv <
          (workerRun name proc flushes items).fst.findIdx isFlushEv
      ∧ (workerRun name proc flushes items).fst.findIdx isFlushEv <
          (workerRun name proc flushes items).fst.length) := by
  induction items with
  | nil =>
    rcases h with h | ⟨e, h⟩ <;> simp [workerRun] at h
  | cons data rest ih =>
    by_cases hs : data = SENTINEL
    · cases hfd : flushes.head?.getD none with
      | none =>
        refine ⟨?_, ?_, ?_⟩ <;>
          simp [workerRun, hs, hfd, isPutEv, isFlushEv, List.findIdx_cons]
      | some e =>
        refine ⟨?_, ?_, ?_⟩ <;>
          simp [workerRun, hs, hfd, isPutEv, isFlushEv, List.findIdx_cons]
    · cases hp : proc data with
      | none =>
        have hout : (workerRun name proc flushes (data :: rest)).snd =
            (workerRun name proc flushes rest).snd := by
          simp [workerRun, hs, hp]
        have hrec := ih (by rw [hout] at h; exact h)
        have hevs : (workerRun name proc flushes (data :: rest)).fst =
            WEv.procCall data :: (workerRun name proc flushes rest).fst := by
          simp [workerRun, hs, hp]
        rw [hevs]
        refine ⟨?_, ?_, ?_⟩
        · simpa [List.find?, isPutEv] using hrec.1
        · simpa [List.findIdx_cons, isPutEv, isFlushEv] using hrec.2.1
        · simpa [List.findIdx_cons, isPutEv, isFlushEv] using hrec.2.2
      | some e =>
        exfalso
        rcases h with h | ⟨e2, h⟩ <;> simp [workerRun, hs, hp] at h

/-- Witness for C3 as amended: a one-item run over just the marker with a
successful flush, where the clean message sits at index 0 and the flush
call at index 1. -/
theorem worker_run_clean_put_before_flush_witness :
    ((workerRun "w1" (fun _ => none) [] [SENTINEL]).fst.find? isPutEv =
        some (WEv.put "w1" "")
      ∧ (workerRun "w1" (fun _ => none) [] [SENTINEL]).fst.findIdx isPutEv <
          (workerRun "w1" (fun _ => none) [] [SENTINEL]).fst.findIdx isFlushEv
      ∧ (workerRun "w1" (fun _ => none) [] [SENTINEL]).fst.findIdx isFlushEv <
          (workerRun "w1" (fun _ => none) [] [SENTINEL]).fst.length) :=
  worker_run_clean_put_before_flush "w1" (fun _ => none) [] [SENTINEL]
    (Or.inl rfl)

/-- C1 counterexample: a reachable execution in which the pool is scaled to
zero.  After the initial spawn the manager grows the pool to two workers,
then two consecutive scale-down passes each see two tracked workers (the
first sentinel is still unconsumed in the backlogged work queue when the
second pass runs), so both passes enqueue a sentinel; both workers then
dequeue one sentinel each and retire, and the next reconciliation removes
both from the tracked set without aborting: zero tracked and zero running
workers. -/
theorem pool_scaled_to_zero_trace :
    (runSteps 4 [Step.reconcile, Step.adjust 1, Step.reconcile,
        Step.adjust (-1), Step.reconcile, Step.adjust (-1), Step.retire 0,
        Step.retire 0, Step.reconcile]).running = []
      ∧ (runSteps 4 [Step.reconcile, Step.adjust 1, Step.reconcile,
          Step.adjust (-1), Step.reconcile, Step.adjust (-1), Step.retire 0,
          Step.retire 0, Step.reconcile]).tracked = []
      ∧ (runSteps 4 [Step.reconcile, Step.adjust 1, Step.reconcile,
          Step.adjust (-1), Step.reconcile, Step.adjust (-1), Step.retire 0,
          Step.retire 0, Step.reconcile]).aborted = false := by
  decide

theorem checkWorkerHealth_nil (ws : List Nat) (hne : ws ≠ []) :
    checkWorkerHealth ws [] = Except.ok (ws, 0) := by
  have hlen : 0 < ws.length := List.length_pos.mpr hne
  simp only [checkWorkerHealth, List.filter_nil, List.length_nil, List.map_nil]
  rw [if_neg (by omega), if_neg (by omega)]
  simp

theorem checkWorkerHealth_single_clean (ws : List Nat) (w : Nat)
    (hne : ws ≠ []) :
    checkWorkerHealth ws [(w, "")] =
      Except.ok (ws.filter (fun x => x ≠ w), 0) := by
  have hlen : 0 < ws.length := List.length_pos.mpr hne
  have hflt : (List.filter (fun m => decide (m.2 ≠ ""))
      ([(w, "")] : List Msg)).length = 0 := rfl
  simp only [checkWorkerHealth, hflt]
  rw [if_neg (by omega), if_neg (by omega)]
  rw [Except.ok.injEq, Prod.mk.injEq]
  refine ⟨List.filter_congr ?_, rfl⟩
  intro x _
  simp

theorem adjustWorkerCount_nonneg (maxWorkers : Nat) (ws : List Nat)
    (nid : Nat) (n : Nat) :
    adjustWorkerCount maxWorkers ws nid (n : Int) =
      { workers :=
          ws ++ (List.range (min n (maxWorkers - ws.length))).map
            (fun i => nid + i),
        sentinelPut := false,
        spawned := (List.range (min n (maxWorkers - ws.length))).map
          (fun i => nid + i),
        nextId := nid + min n (maxWorkers - ws.length) } := by
  unfold adjustWorkerCount
  rw [if_neg (by omega)]
  have htn : (min (n : Int) (max 0 ((maxWorkers : Int) - ws.length))).toNat =
      min n (maxWorkers - ws.length) := by omega
  simp only [htn]

theorem adjustWorkerCount_retire (maxWorkers : Nat) (ws : List Nat)
    (nid : Nat) (need : Int) (hneed : need < 0) (hlen : 1 < ws.length) :
    adjustWorkerCount maxWorkers ws nid need =
      { workers := ws, sentinelPut := true, spawned := [], nextId := nid } := by
  unfold adjustWorkerCount
  rw [if_pos ⟨hneed, hlen⟩]

theorem adjustWorkerCount_hold (maxWorkers : Nat) (ws : List Nat)
    (nid : Nat) (need : Int) (hneed : need < 0) (hlen : ¬ 1 < ws.length) :
    adjustWorkerCount maxWorkers ws nid need =
      { workers := ws, sentinelPut := false, spawned := [], nextId := nid } := by
  unfold adjustWorkerCount
  rw [if_neg (by omega)]
  have htn : (min need (max 0 ((maxWorkers : Int) - ws.length))).toNat = 0 := by
    omega
  simp [htn]

theorem applyStep_reconcile_settled (maxWorkers : Nat) (s : PoolState)
    (hmsg : s.msgs = []) (hne : s.tracked ≠ []) (hab : s.aborted = false) :
    applyStep maxWorkers s Step.reconcile = s := by
  simp only [applyStep, hab, hmsg, checkWorkerHealth_nil s.tracked hne]
  simp [← hmsg]
  rw [← hab]

theorem applyStep_adjust_eq (maxWorkers : Nat) (s : PoolState) (need : Int)
    (hab : s.aborted = false) :
    applyStep maxWorkers s (Step.adjust need) =
      { s with
        tracked := (adjustWorkerCount maxWorkers s.tracked s.nextId need).workers,
        running :=
          s.running ++ (adjustWorkerCount maxWorkers s.tracked s.nextId need).spawned,
        sentinels := s.sentinels +
          (if (adjustWorkerCount maxWorkers s.tracked s.nextId need).sentinelPut
            then 1 else 0),
        nextId := (adjustWorkerCount maxWorkers s.tracked s.nextId need).nextId } := by
  simp only [applyStep, hab]
  simp

theorem applyStep_retire_eq (maxWorkers : Nat) (s : PoolState) (i : Nat)
    (hab : s.aborted = false) (hsen : 0 < s.sentinels) (hne : s.running ≠ []) :
    applyStep maxWorkers s (Step.retire i) =
      { s with
        running := s.running.filter
          (fun x => x ≠ s.running.getD (i % s.running.length) 0),
        sentinels := s.sentinels - 1,
        msgs := s.msgs ++ [(s.running.getD (i % s.running.length) 0, "")] } := by
  simp only [applyStep, hab]
  simp [hsen, hne]

theorem applyStep_retire_hold (maxWorkers : Nat) (s : PoolState) (i : Nat)
    (hab : s.aborted = false) (hsen : s.sentinels = 0) :
    applyStep maxWorkers s (Step.retire i) = s := by
  simp only [applyStep, hab]
  simp [hsen]

theorem settledInv_up (maxWorkers : Nat) (n : Nat) (s : PoolState)
    (hinv : SettledInv s) :
    SettledInv ((sCmdSteps (SCmd.up n)).foldl (applyStep maxWorkers) s) := by
  obtain ⟨htr, hsen, hmsg, hne, hnd, hbound, hab⟩ := hinv
  have hrec := applyStep_reconcile_settled maxWorkers s hmsg hne hab
  simp only [sCmdSteps, List.foldl_cons, List.foldl_nil, hrec]
  rw [applyStep_adjust_eq maxWorkers s (n : Int) hab,
    adjustWorkerCount_nonneg maxWorkers s.tracked s.nextId n]
  refine ⟨?_, ?_, ?_, ?_, ?_, ?_, ?_⟩
  · simp only
    rw [htr]
  · simp [hsen]
  · exact hmsg
  · simp only
    intro hcontra
    rw [List.append_eq_nil] at hcontra
    exact hne hcontra.1
  · simp only
    refine List.Nodup.append hnd ?_ ?_
    · refine List.Nodup.map ?_ (List.nodup_range _)
      intro a b h2
      simpa using h2
    · intro x hx hx2
      have h1 := hbound x hx
      obtain ⟨j, _, hj2⟩ := List.mem_map.mp hx2
      omega
  · simp only
    intro x hx
    rcases List.mem_append.mp hx with h | h
    · have := hbound x h
      omega
    · obtain ⟨j, hj1, hj2⟩ := List.mem_map.mp h
      rw [List.mem_range] at hj1
      omega
  · exact hab

theorem getD_mod_mem (l : List Nat) (i : Nat) (hne : l ≠ []) :
    l.getD (i % l.length) 0 ∈ l := by
  have hlt : i % l.length < l.length :=
    Nat.mod_lt _ (List.length_pos.mpr hne)
  rw [List.getD_eq_getElem l 0 hlt]
  exact List.getElem_mem hlt

theorem length_filter_ne_of_nodup_mem (l : List Nat) (w : Nat)
    (hnd : l.Nodup) (hw : w ∈ l) :
    (l.filter (fun x => x ≠ w)).length + 1 = l.length := by
  induction l with
  | nil => cases hw
  | cons a t ih =>
    rw [List.nodup_cons] at hnd
    by_cases hx : a = w
    · subst hx
      have ht : t.filter (fun x => x ≠ a) = t := by
        refine List.filter_eq_self.mpr (fun b hb => ?_)
        simp only [decide_eq_true_eq]
        intro hba
        exact hnd.1 (hba ▸ hb)
      simp only [List.filter_cons, decide_eq_true_eq]
      rw [if_neg (by omega : ¬ a ≠ a), ht, List.length_cons]
    · rcases List.mem_cons.mp hw with h | h
      · exact absurd h.symm hx
      · have hrec := ih hnd.2 h
        simp only [List.filter_cons, decide_eq_true_eq]
        rw [if_pos (by omega : a ≠ w)]
        simp only [List.length_cons]
        omega

theorem settledInv_down (maxWorkers : Nat) (i : Nat) (s : PoolState)
    (hinv : SettledInv s) :
    SettledInv ((sCmdSteps (SCmd.down i)).foldl (applyStep maxWorkers) s) := by
  obtain ⟨htr, hsen, hmsg, hne, hnd, hbound, hab⟩ := hinv
  have hrec := applyStep_reconcile_settled maxWorkers s hmsg hne hab
  simp only [sCmdSteps, List.foldl_cons, List.foldl_nil, hrec]
  by_cases hlen : 1 < s.tracked.length
  · have hrune : s.running ≠ [] := htr ▸ hne
    have hs1 : applyStep maxWorkers s (Step.adjust (-1)) =
        { s with sentinels := 1 } := by
      rw [applyStep_adjust_eq maxWorkers s (-1) hab,
        adjustWorkerCount_retire maxWorkers s.tracked s.nextId (-1)
          (by omega) hlen]
      simp [hsen]
    have hs2 : applyStep maxWorkers { s with sentinels := 1 } (Step.retire i) =
        { s with
          running := s.running.filter
            (fun x => x ≠ s.running.getD (i % s.running.length) 0),
          sentinels := 0,
          msgs := [(s.running.getD (i % s.running.length) 0, "")] } := by
      rw [applyStep_retire_eq maxWorkers { s with sentinels := 1 } i hab
        (by simp) hrune]
      simp [hmsg]
    have hs3 : applyStep maxWorkers
        { s with
          running := s.running.filter
            (fun x => x ≠ s.running.getD (i % s.running.length) 0),
          sentinels := 0,
          msgs := [(s.running.getD (i % s.running.length) 0, "")] }
        Step.reconcile =
        { s with
          tracked := s.tracked.filter
            (fun x => x ≠ s.running.getD (i % s.running.length) 0),
          running := s.running.filter
            (fun x => x ≠ s.running.getD (i % s.running.length) 0),
          sentinels := 0,
          msgs := [] } := by
      simp only [applyStep, hab]
      rw [checkWorkerHealth_single_clean s.tracked _ hne]
      simp
    rw [hs1, hs2, hs3]
    have hwmem : s.running.getD (i % s.running.length) 0 ∈ s.tracked := by
      rw [htr]
      exact getD_mod_mem s.running i hrune
    have hflen := length_filter_ne_of_nodup_mem s.tracked
      (s.running.getD (i % s.running.length) 0) hnd hwmem
    refine ⟨?_, rfl, rfl, ?_, ?_, ?_, hab⟩
    · simp only
      rw [htr]
    · simp only
      intro hcontra
      have : (List.filter
          (fun x => x ≠ s.running.getD (i % s.running.length) 0)
          s.tracked).length = 0 := by rw [hcontra]; rfl
      omega
    · exact List.Nodup.filter _ hnd
    · intro x hx
      exact hbound x (List.mem_of_mem_filter hx)
  · have hs1 : applyStep maxWorkers s (Step.adjust (-1)) = s := by
      rw [applyStep_adjust_eq maxWorkers s (-1) hab,
        adjustWorkerCount_hold maxWorkers s.tracked s.nextId (-1)
          (by omega) hlen]
      simp
    rw [hs1, applyStep_retire_hold maxWorkers s i hab hsen, hrec]
    exact ⟨htr, hsen, hmsg, hne, hnd, hbound, hab⟩

theorem initState_eq (maxWorkers : Nat) (hm : 1 ≤ maxWorkers) :
    initState maxWorkers =
      { tracked := [0], running := [0], sentinels := 0, msgs := [], nextId := 1,
        aborted := false } := by
  have h1 : (min (1 : Int) (maxWorkers : Int)).toNat = 1 := by omega
  have h2 : List.range 1 = [0] := rfl
  simp [initState, applyStep, adjustWorkerCount, h1, h2]

theorem settledInv_runSettled (maxWorkers : Nat) (hm : 1 ≤ maxWorkers)
    (cmds : List SCmd) : SettledInv (runSettled maxWorkers cmds) := by
  have hinit : SettledInv (initState maxWorkers) := by
    rw [initState_eq maxWorkers hm]
    exact ⟨rfl, rfl, rfl, by simp, by simp, by decide, rfl⟩
  unfold runSettled
  suffices h : ∀ s : PoolState, SettledInv s →
      SettledInv (cmds.foldl
        (fun t c => (sCmdSteps c).foldl (applyStep maxWorkers) t) s) by
    exact h _ hinit
  induction cmds with
  | nil => exact fun s hs => hs
  | cons c rest ih =>
    intro s hs
    rw [List.foldl_cons]
    refine ih _ ?_
    cases c with
    | up n => exact settledInv_up maxWorkers n s hs
    | down i => exact settledInv_down maxWorkers i s hs

/-- C1 as amended: the pool adjuster enqueues a termination marker exactly
when `need < 0` and the tracked pool has more than one worker (this part of
the claim holds unconditionally); and along settled schedules — where every
scale-down pass has its sentinel consumed and the retirement reconciled
before the next manager pass — the running pool always keeps at least one
worker and the manager never aborts.  (The unsettled interleavings excluded
here are exactly those of the counterexample, where pending sentinels drive
the running pool to zero.) -/
theorem pool_scale_down_guard_and_settled_invariant :
    (∀ (maxWorkers : Nat) (workers : List Nat) (nextId : Nat) (need : Int),
      (adjustWorkerCount maxWorkers workers nextId need).sentinelPut = true ↔
        (need < 0 ∧ workers.length > 1))
    ∧ (∀ (maxWorkers : Nat) (cmds : List SCmd), 1 ≤ maxWorkers →
      1 ≤ (runSettled maxWorkers cmds).running.length
        ∧ (runSettled maxWorkers cmds).aborted = false) := by
  constructor
  · intro maxW ws nid need
    unfold adjustWorkerCount
    split
    · next hcond => simpa using hcond
    · next hcond => simpa using hcond
  · intro maxW cmds hm
    obtain ⟨htr, _, _, hne, _, _, hab⟩ := settledInv_runSettled maxW hm cmds
    refine ⟨?_, hab⟩
    rw [← htr]
    exact List.length_pos.mpr hne

/-- Witness for C1 as amended: the guard instantiated at a one-worker pool
(no sentinel), and a concrete settled schedule — spawn two, retire twice —
that ends with a non-empty running pool and no abort. -/
theorem pool_scale_down_guard_and_settled_invariant_witness :
    ((adjustWorkerCount 4 [0] 1 (-1)).sentinelPut = true ↔
        ((-1 : Int) < 0 ∧ ([0] : List Nat).length > 1))
    ∧ (1 ≤ (runSettled 4 [SCmd.up 2, SCmd.down 0, SCmd.down 1]).running.length
        ∧ (runSettled 4 [SCmd.up 2, SCmd.down 0, SCmd.down 1]).aborted
            = false) :=
  ⟨pool_scale_down_guard_and_settled_invariant.1 4 [0] 1 (-1),
   pool_scale_down_guard_and_settled_invariant.2 4
     [SCmd.up 2, SCmd.down 0, SCmd.down 1] (by decide)⟩

theorem readRef_append (st : Store) (v : List Nat) (q : Nat)
    (h : q < st.length) : readRef (st ++ [v]) q = readRef st q := by
  induction st generalizing q with
  | nil => cases h
  | cons a t ih =>
    cases q with
    | zero => rfl
    | succ n => exact ih n (by simpa using h)

theorem readRef_set_ne (st : Store) (r : Nat) (v : List Nat) (q : Nat)
    (h : q ≠ r) : readRef (writeRef st r v) q = readRef st q := by
  induction st generalizing r q with
  | nil => rfl
  | cons a t ih =>
    cases r with
    | zero =>
      cases q with
      | zero => exact absurd rfl h
      | succ n => rfl
    | succ m =>
      cases q with
      | zero => rfl
      | succ n => exact ih m n (by omega)

theorem checkWorkloadRef_ok_shape (st : Store) (r : Nat) (msgs : List Msg)
    (d : Nat) (st1 : Store) (r1 : Nat) (need : Int)
    (h : checkWorkloadRef st r msgs d = Except.ok (st1, r1, need)) :
    (∃ ws, st1 = st ++ [ws]) ∧ r1 = st.length := by
  unfold checkWorkloadRef checkWorkerHealthRef allocRef at h
  cases hc : checkWorkerHealth (readRef st r) msgs with
  | error e => rw [hc] at h; simp at h
  | ok p =>
    rw [hc] at h
    rw [Except.ok.injEq, Prod.mk.injEq] at h
    obtain ⟨h1, h2⟩ := h
    rw [Prod.mk.injEq] at h2
    exact ⟨⟨p.fst, h1.symm⟩, h2.1.symm⟩

theorem produceWorkRef_frame (maxWorkers : Nat) (passes : List PassData) :
    ∀ (st : Store) (r nid : Nat) (out : Store × Nat × Nat),
      produceWorkRef maxWorkers st r nid passes = Except.ok out →
      (∀ q, q < st.length → readRef out.fst q = readRef st q)
        ∧ st.length ≤ out.fst.length
        ∧ (st.length ≤ out.snd.fst ∨ (passes = [] ∧ out.snd.fst = r)) := by
  induction passes with
  | nil =>
    intro st r nid out h
    unfold produceWorkRef at h
    rw [Except.ok.injEq] at h
    subst h
    exact ⟨fun q _ => rfl, le_refl _, Or.inr ⟨rfl, rfl⟩⟩
  | cons p rest ih =>
    intro st r nid out h
    unfold produceWorkRef at h
    cases hc : checkWorkloadRef st r p.msgs p.depth with
    | error e => rw [hc] at h; simp at h
    | ok trip =>
      obtain ⟨st1, r1, need⟩ := trip
      rw [hc] at h
      simp only [adjustWorkerCountRef] at h
      obtain ⟨⟨ws, hst1⟩, hr1⟩ :=
        checkWorkloadRef_ok_shape st r p.msgs p.depth st1 r1 need hc
      have hlen1 : st1.length = st.length + 1 := by
        rw [hst1]; simp
      have hlen2 :
          (writeRef st1 r1
            (adjustWorkerCount maxWorkers (readRef st1 r1) nid need).workers).length
            = st.length + 1 := by
        unfold writeRef
        rw [List.length_set, hlen1]
      obtain ⟨hframe, hle, href⟩ := ih _ _ _ out h
      refine ⟨?_, ?_, ?_⟩
      · intro q hq
        rw [hframe q (by omega)]
        rw [readRef_set_ne st1 r1 _ q (by omega)]
        rw [hst1, readRef_append st ws q hq]
      · omega
      · rcases href with hl | ⟨_, hr⟩
        · exact Or.inl (by omega)
        · exact Or.inl (by omega)

theorem processLogsLoopRef_frame (maxWorkers : Nat)
    (invs : List (List PassData)) :
    ∀ (st : Store) (r nid : Nat) (out : Store × Nat),
      r < st.length →
      processLogsLoopRef maxWorkers st r nid invs = Except.ok out →
      readRef out.fst r = readRef st r := by
  induction invs with
  | nil =>
    intro st r nid out _ h
    unfold processLogsLoopRef at h
    rw [Except.ok.injEq] at h
    subst h
    rfl
  | cons inv rest ih =>
    intro st r nid out hr h
    unfold processLogsLoopRef at h
    cases hp : produceWorkRef maxWorkers st r nid inv with
    | error e => rw [hp] at h; simp at h
    | ok trip =>
      rw [hp] at h
      obtain ⟨hframe, hle, _⟩ := produceWorkRef_frame maxWorkers inv st r nid
        trip hp
      have hrec := ih trip.fst r trip.snd.snd out (by omega) h
      rw [hrec, hframe r hr]

/-- C10: reference-level frame property of the reconciliation and producer
loops.  `check_worker_health` writes no existing heap object and returns a
reference to a freshly allocated list; a `produce_work` invocation that
performs at least one scaling checkpoint leaves the caller's list object
unchanged and ends with its local `workers` variable rebound to a different
(fresh) reference, so removals and spawns live only in the new objects; and
the `process_logs` loop, which passes the same reference to every
`produce_work` iteration, sees that object unchanged forever. -/
theorem manager_worker_list_frame :
    (∀ (st : Store) (r : Nat) (msgs : List Msg) (st1 : Store) (r1 : Nat)
        (sc : Int),
      checkWorkerHealthRef st r msgs = Except.ok (st1, r1, sc) →
        (∀ q, q < st.length → readRef st1 q = readRef st q)
          ∧ r1 = st.length)
    ∧ (∀ (maxWorkers : Nat) (st : Store) (r nid : Nat)
        (passes : List PassData) (out : Store × Nat × Nat),
      r < st.length →
      produceWorkRef maxWorkers st r nid passes = Except.ok out →
        readRef out.fst r = readRef st r
          ∧ (passes ≠ [] → out.snd.fst ≠ r))
    ∧ (∀ (maxWorkers : Nat) (st : Store) (r nid : Nat)
        (invs : List (List PassData)) (out : Store × Nat),
      r < st.length →
      processLogsLoopRef maxWorkers st r nid invs = Except.ok out →
        readRef out.fst r = readRef st r) := by
  refine ⟨?_, ?_, ?_⟩
  · intro st r msgs st1 r1 sc h
    unfold checkWorkerHealthRef allocRef at h
    cases hc : checkWorkerHealth (readRef st r) msgs with
    | error e => rw [hc] at h; simp at h
    | ok p =>
      rw [hc] at h
      rw [Except.ok.injEq, Prod.mk.injEq] at h
      obtain ⟨h1, h2⟩ := h
      rw [Prod.mk.injEq] at h2
      refine ⟨fun q hq => ?_, h2.1.symm⟩
      rw [← h1, readRef_append st p.fst q hq]
  · intro maxWorkers st r nid passes out hr h
    obtain ⟨hframe, _, href⟩ :=
      produceWorkRef_frame maxWorkers passes st r nid out h
    refine ⟨hframe r hr, fun hne => ?_⟩
    rcases href with hl | ⟨hnil, _⟩
    · omega
    · exact absurd hnil hne
  · intro maxWorkers st r nid invs out hr h
    exact processLogsLoopRef_frame maxWorkers invs st r nid out hr h

/-- Witness for C10: a concrete store holding one worker-list object at
reference 0, run through a health check, a one-checkpoint `produce_work`,
and a one-iteration `process_logs` loop; the object at reference 0 is
unchanged in each case and the rebound local reference differs from 0. -/
theorem manager_worker_list_frame_witness :
    ((∀ q, q < ([[0]] : Store).length →
        readRef [[0], [0]] q = readRef [[0]] q) ∧ 1 = ([[0]] : Store).length)
    ∧ (readRef [[0], [0]] 0 = readRef [[0]] 0 ∧
        ([(⟨[], 50⟩ : PassData)] ≠ ([] : List PassData) → 1 ≠ 0))
    ∧ readRef [[0], [0]] 0 = readRef [[0]] 0 :=
  ⟨manager_worker_list_frame.1 [[0]] 0 [] [[0], [0]] 1 0 (by rfl),
   manager_worker_list_frame.2.1 4 [[0]] 0 5 [⟨[], 50⟩] ([[0], [0]], 1, 5)
     (by decide) (by rfl),
   manager_worker_list_frame.2.2 4 [[0]] 0 5 [[⟨[], 50⟩]] ([[0], [0]], 5)
     (by decide) (by rfl)⟩

end Autobox
